import Mathlib

/-!
Shallow embedding of the General Ledger accounting engine
(`app/services/gl/journal.py`, `app/services/gl/periods.py`,
`app/services/gl/locks.py`, models in `app/models/gl_accounting.py`).

Conventions of the embedding:
* Monetary amounts are integers counting cents.  The database columns are
  `NUMERIC(14,2)` and the API schema supplies 2-decimal `Decimal` values, so
  every amount is an exact multiple of 0.01; the Python balance checks
  `(td - tc).quantize(0.01) != 0` and `round(float(td) - float(tc), 2) != 0.0`
  become exact integer equality on cents.
* The SQLAlchemy `Session` is modelled as a pair of stores: `committed` (what
  the database holds) and `pending` (the session view including uncommitted
  writes).  `db.add`/`db.flush`/raw `db.execute` writes mutate `pending`;
  `db.commit()` copies `pending` into `committed`; `db.rollback()` copies
  `committed` back into `pending`.  Postgres sequences (`id`, `entry_no`) are
  not transactional, so the counters live outside the two stores and are not
  restored by a rollback.
* The audit helper `_log` wraps its insert in `try/except` and calls
  `db.rollback()` on failure; whether the audit insert raises is modelled by
  an explicit boolean argument (`auditOk`) on each operation.
* Python raises `ValueError` with distinct messages; each raise site becomes
  one constructor of `GLErr`.
* Advisory locks: `pg_try_advisory_lock(year*100+month)` succeeds unless some
  other session holds the key; the set of keys held by other sessions is the
  `busy` field of the session state.
-/

namespace Ledger

/-- A calendar date (`datetime.date`). -/
structure GLDate where
  year : Nat
  month : Nat
  day : Nat
deriving DecidableEq, Repr, Inhabited

/-- Gregorian leap-year rule (as used by the Python `calendar` module). -/
def isLeapYear (y : Nat) : Bool :=
  (y % 4 == 0 && y % 100 != 0) || (y % 400 == 0)

/-- `calendar.monthrange(y, m)[1]`: number of days in the month. -/
def daysInMonth (y m : Nat) : Nat :=
  if m = 2 then (if isLeapYear y then 29 else 28)
  else if m = 4 ∨ m = 6 ∨ m = 9 ∨ m = 11 then 30
  else 31

/-- `_first_of_month`: `date(d.year, d.month, 1)`. -/
def firstOfMonth (d : GLDate) : GLDate := ⟨d.year, d.month, 1⟩

/-- Date comparison `a <= b` (lexicographic on year, month, day). -/
def dateLE (a b : GLDate) : Bool :=
  decide (a.year < b.year ∨ (a.year = b.year ∧
    (a.month < b.month ∨ (a.month = b.month ∧ a.day ≤ b.day))))

/-- `gl_account_type` enum. -/
inductive AccountType where
  | asset | liability | equity | income | expense
deriving DecidableEq, Repr, Inhabited

/-- `gl_normal_side` enum. -/
inductive NormalSide where
  | debit | credit
deriving DecidableEq, Repr, Inhabited

/-- Row of `gl_accounts`. -/
structure GLAccount where
  id : Nat
  code : String
  name : String
  type : AccountType
  normal_side : NormalSide
  is_cash : Bool := false
  is_active : Bool := true
  description : Option String := none
deriving DecidableEq, Repr, Inhabited

/-- Row of `journal_lines` (cents for `debit`/`credit`). -/
structure JournalLine where
  account_id : Nat
  line_no : Nat
  description : Option String
  debit : Int
  credit : Int
deriving DecidableEq, Repr, Inhabited

/-- Row of `journal_entries` with its owned lines (ordered by `line_no`
assignment order).  `posted_at`/`locked_at` hold an abstract clock value. -/
structure JournalEntry where
  id : Nat
  entry_no : Nat
  entry_date : GLDate
  memo : Option String
  currency_code : String
  reference_no : Option String
  source_module : Option String
  source_id : Option String
  created_by_user_id : Option Nat
  posted_by_user_id : Option Nat
  posted_at : Option Nat
  is_locked : Bool
  locked_at : Option Nat
  lines : List JournalLine
deriving DecidableEq, Repr, Inhabited

/-- Row of `gl_period_locks`. -/
structure PeriodLock where
  period_month : GLDate
  is_locked : Bool
  note : Option String
deriving DecidableEq, Repr, Inhabited

/-- Row of the audit log table. -/
structure AuditRecord where
  entity_type : String
  entity_id : String
  action : String
  details : Option String
deriving DecidableEq, Repr, Inhabited

/-- A snapshot of the relational store. -/
structure Store where
  accounts : List GLAccount
  entries : List JournalEntry
  period_locks : List PeriodLock
  audit_log : List AuditRecord
deriving DecidableEq, Repr, Inhabited

/-- The SQLAlchemy session: committed database state plus the pending session (uncommitted) view, the non-transactional sequences, and the set of
advisory-lock keys held by other sessions. -/
structure Session where
  committed : Store
  pending : Store
  next_je_id : Nat
  next_entry_no : Nat
  busy : List Nat
deriving DecidableEq, Repr, Inhabited

/-- One constructor per `raise ValueError(...)` site in the GL services. -/
inductive GLErr where
  | accountNotFound (account_id : Nat)
  | oneSidedLine
  | notBalanced
  | entryNotFound
  | postPeriodLocked
  | postUnbalanced
  | unpostPeriodLocked
  | reverseDraft
  | reversePeriodLocked
  | periodBusy
  | closePeriodLocked
  | alreadyClosed
  | nothingToClose
  | refreshFailed
deriving DecidableEq, Repr

/-- One element of the `lines` iterable handed to `create_journal_entry`
(a Python dict; missing `debit`/`credit` default to 0). -/
structure LineInput where
  account_id : Nat
  description : Option String := none
  debit : Int := 0
  credit : Int := 0
  line_no : Option Nat := none
deriving DecidableEq, Repr, Inhabited

/-- Keyword arguments of `create_journal_entry`. -/
structure CreateParams where
  entry_date : GLDate
  memo : Option String := none
  currency_code : String := "PHP"
  reference_no : Option String := none
  source_module : Option String := none
  source_id : Option String := none
  lines : List LineInput := []
  created_by_user_id : Option Nat := none
deriving DecidableEq, Repr, Inhabited

/-- `db.commit()`. -/
def commit (s : Session) : Session := { s with committed := s.pending }

/-- `db.rollback()`. -/
def rollback (s : Session) : Session := { s with pending := s.committed }

/-- `db.get(GLAccount, id)` against the session view. -/
def findAccount (st : Store) (account_id : Nat) : Option GLAccount :=
  st.accounts.find? (fun a => a.id == account_id)

/-- `db.get(JournalEntry, id)` on a list of entry rows. -/
def findEntryL (es : List JournalEntry) (je_id : Nat) : Option JournalEntry :=
  es.find? (fun e => e.id == je_id)

/-- `db.get(JournalEntry, id)` against a store. -/
def findEntry (st : Store) (je_id : Nat) : Option JournalEntry :=
  findEntryL st.entries je_id

/-- ORM attribute assignment on the row with the given id. -/
def updateEntry (st : Store) (je_id : Nat) (f : JournalEntry → JournalEntry) : Store :=
  { st with entries := st.entries.map (fun e => if e.id = je_id then f e else e) }

/-- `_is_period_locked`: look up the `gl_period_locks` row for the first of
the month; an absent row means not locked. -/
def _is_period_locked (st : Store) (d : GLDate) : Bool :=
  match st.period_locks.find? (fun p => p.period_month == firstOfMonth d) with
  | some p => p.is_locked
  | none => false

/-- The `ON CONFLICT ... DO UPDATE` upsert of `_set_period_lock`; the note is
merged with `COALESCE(EXCLUDED.note, old.note)`. -/
def upsertLock (st : Store) (pm : GLDate) (locked : Bool) (note : Option String) : Store :=
  if st.period_locks.any (fun p => p.period_month == pm) then
    { st with period_locks := st.period_locks.map (fun p =>
        if p.period_month = pm then
          { p with is_locked := locked, note := note.orElse (fun _ => p.note) }
        else p) }
  else
    { st with period_locks := st.period_locks ++ [⟨pm, locked, note⟩] }

/-- `_set_period_lock`: raw upsert followed by `db.commit()`. -/
def _set_period_lock (s : Session) (first : GLDate) (locked : Bool) (note : Option String) : Session :=
  commit { s with pending := upsertLock s.pending first locked note }

/-- `_log`: the audit insert is wrapped in `try/except`; on success the row
is added to the session, on failure the handler calls `db.rollback()`,
discarding every pending write of the enclosing operation. -/
def _log (s : Session) (entity_type entity_id action : String)
    (details : Option String) (auditOk : Bool) : Session :=
  if auditOk then
    { s with pending := { s.pending with
        audit_log := s.pending.audit_log ++ [⟨entity_type, entity_id, action, details⟩] } }
  else rollback s

/-- Python truthiness helper: `x or default` for strings. -/
def strOr (x default : String) : String := if x = "" then default else x

/-- Python truthiness helper: `x or default` for an optional string. -/
def optStrOr (x : Option String) (default : String) : String :=
  match x with
  | some v => strOr v default
  | none => default

/-- `ln.get("description") or None`: an empty string becomes `None`. -/
def descOrNone : Option String → Option String
  | some v => if v = "" then none else some v
  | none => none

/-- `int(ln.get("line_no") or next_line_no)`: a missing or zero `line_no`
falls back to the running counter. -/
def lineNoOr (explicit : Option Nat) (next_line_no : Nat) : Nat :=
  match explicit with
  | some n => if n = 0 then next_line_no else n
  | none => next_line_no

/-- The per-line rule of `create_journal_entry`: exactly one of debit and
credit is strictly positive. -/
def oneSided (debit credit : Int) : Bool :=
  decide ((debit > 0 ∧ credit = 0) ∨ (credit > 0 ∧ debit = 0))

/-- Total debits of a list of lines. -/
def sumDebits (ls : List JournalLine) : Int := (ls.map (fun l => l.debit)).sum

/-- Total credits of a list of lines. -/
def sumCredits (ls : List JournalLine) : Int := (ls.map (fun l => l.credit)).sum

/-- Total debits of the line inputs of a create call. -/
def inputDebits (ls : List LineInput) : Int := (ls.map (fun l => l.debit)).sum

/-- Total credits of the line inputs of a create call. -/
def inputCredits (ls : List LineInput) : Int := (ls.map (fun l => l.credit)).sum

/-- The line-validation loop of `create_journal_entry`: resolve each account,
enforce the one-sided rule, accumulate totals, and build the `JournalLine`
rows (in input order, with the running `next_line_no` counter). -/
def processLines (st : Store) : List LineInput → Nat →
    Except GLErr (List JournalLine × Int × Int)
  | [], _ => .ok ([], 0, 0)
  | ln :: rest, next_line_no =>
    match findAccount st ln.account_id with
    | none => .error (.accountNotFound ln.account_id)
    | some acct =>
      if oneSided ln.debit ln.credit then
        match processLines st rest (next_line_no + 1) with
        | .error e => .error e
        | .ok (objs, td, tc) =>
          .ok ({ account_id := acct.id,
                 line_no := lineNoOr ln.line_no next_line_no,
                 description := descOrNone ln.description,
                 debit := ln.debit, credit := ln.credit } :: objs,
               ln.debit + td, ln.credit + tc)
      else .error .oneSidedLine

/-- The `JournalEntry` header row built by `create_journal_entry`, with its
validated lines; `id` and `entry_no` come from the sequences at flush. -/
def newEntry (s : Session) (p : CreateParams) (line_objs : List JournalLine) :
    JournalEntry :=
  { id := s.next_je_id, entry_no := s.next_entry_no,
    entry_date := p.entry_date, memo := p.memo,
    currency_code := strOr p.currency_code "PHP",
    reference_no := p.reference_no, source_module := p.source_module,
    source_id := p.source_id,
    created_by_user_id := p.created_by_user_id,
    posted_by_user_id := none, posted_at := none,
    is_locked := false, locked_at := none, lines := line_objs }

/-- The write/audit/commit tail of `create_journal_entry`: add the entry and
its lines to the session, bump the sequences, run `_log`, commit. -/
def createCommit (s : Session) (je : JournalEntry) (auditOk : Bool) : Session :=
  commit (_log
    { s with pending := { s.pending with entries := s.pending.entries ++ [je] },
             next_je_id := s.next_je_id + 1,
             next_entry_no := s.next_entry_no + 1 }
    "journal_entry" (toString je.id) "create" (some (toString je.id)) auditOk)

/-- `create_journal_entry` (`app/services/gl/journal.py`).  Validates every
line, checks the balanced-entry rule, persists header and lines, writes the
audit row, commits, and refreshes the new entry from the committed store. -/
def create_journal_entry (s : Session) (p : CreateParams) (auditOk : Bool) :
    Session × Except GLErr JournalEntry :=
  match processLines s.pending p.lines 1 with
  | .error e => (s, .error e)
  | .ok (line_objs, total_debits, total_credits) =>
    if total_debits ≠ total_credits then (s, .error .notBalanced)
    else
      let s3 := createCommit s (newEntry s p line_objs) auditOk
      match findEntry s3.committed (newEntry s p line_objs).id with
      | some je2 => (s3, .ok je2)
      | none => (s3, .error .refreshFailed)

/-- The ORM mutation of `post_journal_entry`: set the posting flags. -/
def postFlags (posted_by_user_id : Option Nat) (now : Nat) (e : JournalEntry) :
    JournalEntry :=
  { e with posted_at := some now, posted_by_user_id := posted_by_user_id,
           is_locked := true, locked_at := some now }

/-- The ORM mutation of `unpost_journal_entry`: clear the posting flags. -/
def unpostFlags (e : JournalEntry) : JournalEntry :=
  { e with posted_at := none, posted_by_user_id := none,
           is_locked := false, locked_at := none }

/-- The write/audit/commit tail of `post_journal_entry`. -/
def postCommit (s : Session) (je_id : Nat) (posted_by_user_id : Option Nat)
    (now : Nat) (auditOk : Bool) : Session :=
  commit (_log
    { s with pending := updateEntry s.pending je_id (postFlags posted_by_user_id now) }
    "journal_entry" (toString je_id) "post" (some (toString je_id)) auditOk)

/-- The write/audit/commit tail of `unpost_journal_entry`. -/
def unpostCommit (s : Session) (je_id : Nat) (auditOk : Bool) : Session :=
  commit (_log
    { s with pending := updateEntry s.pending je_id unpostFlags }
    "journal_entry" (toString je_id) "unpost" (some (toString je_id)) auditOk)

/-- `post_journal_entry`: no-op when already posted, refuse in a locked
period, defensively re-check the balance, then set the posting flags. -/
def post_journal_entry (s : Session) (je_id : Nat)
    (posted_by_user_id : Option Nat) (now : Nat) (auditOk : Bool) :
    Session × Except GLErr JournalEntry :=
  match findEntry s.pending je_id with
  | none => (s, .error .entryNotFound)
  | some je =>
    if je.is_locked then (s, .ok je)
    else if _is_period_locked s.pending je.entry_date then (s, .error .postPeriodLocked)
    else if sumDebits je.lines ≠ sumCredits je.lines then (s, .error .postUnbalanced)
    else
      let s3 := postCommit s je_id posted_by_user_id now auditOk
      match findEntry s3.committed je_id with
      | some je2 => (s3, .ok je2)
      | none => (s3, .error .refreshFailed)

/-- `unpost_journal_entry`: no-op when already draft, refuse in a locked
period, then clear the posting flags. -/
def unpost_journal_entry (s : Session) (je_id : Nat)
    ( unposted_by_user_id : Option Nat) (auditOk : Bool) :
    Session × Except GLErr JournalEntry :=
  match findEntry s.pending je_id with
  | none => (s, .error .entryNotFound)
  | some je =>
    if !je.is_locked then (s, .ok je)
    else if _is_period_locked s.pending je.entry_date then (s, .error .unpostPeriodLocked)
    else
      let s3 := unpostCommit s je_id auditOk
      match findEntry s3.committed je_id with
      | some je2 => (s3, .ok je2)
      | none => (s3, .error .refreshFailed)

/-- The mirror lines built by `reverse_journal_entry`: debit and credit
swapped, same accounts, annotated description. -/
def mirrorLines (src : JournalEntry) : List LineInput :=
  src.lines.map (fun ln =>
    { account_id := ln.account_id,
      description := some ("Reversal of JE " ++ toString src.entry_no),
      debit := ln.credit, credit := ln.debit, line_no := none })

/-- `reverse_journal_entry`: reverse a posted entry by creating and posting a
new entry with mirrored lines; the source is only read. -/
def reverse_journal_entry (s : Session) (je_id : Nat) (as_of : Option GLDate)
    (created_by_user_id : Option Nat) (now : Nat) (auditOkCreate auditOkPost : Bool) :
    Session × Except GLErr JournalEntry :=
  match findEntry s.pending je_id with
  | none => (s, .error .entryNotFound)
  | some src =>
    if !src.is_locked then (s, .error .reverseDraft)
    else
      let rev_date := as_of.getD src.entry_date
      if _is_period_locked s.pending rev_date then (s, .error .reversePeriodLocked)
      else
        let ref_base := src.reference_no.getD ("JE-" ++ toString src.entry_no)
        match create_journal_entry s
          { entry_date := rev_date,
            memo := some (src.memo.getD "" ++ " (reversal)"),
            currency_code := strOr src.currency_code "PHP",
            reference_no := some (ref_base ++ "-REV"),
            source_module := some "reversal",
            source_id := some (toString src.id),
            lines := mirrorLines src,
            created_by_user_id := created_by_user_id } auditOkCreate with
        | (s1, .error e) => (s1, .error e)
        | (s1, .ok rev) =>
          post_journal_entry s1 rev.id created_by_user_id now auditOkPost

/-- Zero-pad to two digits (`{month:02d}`). -/
def pad2 (n : Nat) : String := if n < 10 then "0" ++ toString n else toString n

/-- Zero-pad to four digits (`{year:04d}`). -/
def pad4 (n : Nat) : String :=
  if n < 10 then "000" ++ toString n
  else if n < 100 then "00" ++ toString n
  else if n < 1000 then "0" ++ toString n
  else toString n

/-- The closing reference `"CLOSE-{year:04d}{month:02d}"`. -/
def closeRef (year month : Nat) : String := "CLOSE-" ++ pad4 year ++ pad2 month

/-- The `"{year}-{month:02d}"` label used in closing memos and descriptions. -/
def ymStr (year month : Nat) : String := toString year ++ "-" ++ pad2 month

/-- `_has_posted_reversal_for`: a posted entry with `source_module =
"reversal"` and `source_id = str(closing_id)` exists. -/
def hasPostedReversalFor (st : Store) (closing_id : Nat) : Bool :=
  st.entries.any (fun e =>
    e.source_module == some "reversal" &&
    e.source_id == some (toString closing_id) && e.is_locked)

/-- The ids of posted entries carrying the month's closing reference. -/
def closingIds (st : Store) (year month : Nat) : List Nat :=
  ((st.entries.filter (fun e =>
    e.reference_no == some (closeRef year month) && e.is_locked)).map (fun e => e.id))

/-- The joined line set of the close aggregation SQL: lines of posted entries
dated within `[first, last]` (the query has no `source_module` filter). -/
def monthLines (st : Store) (first last : GLDate) : List JournalLine :=
  (st.entries.filter (fun e =>
    e.is_locked && dateLE first e.entry_date && dateLE e.entry_date last)).flatMap
    (fun e => e.lines)

/-- `SUM(l.debit)` of the given lines for one account. -/
def acctDebitTotal (ls : List JournalLine) (account_id : Nat) : Int :=
  ((ls.filter (fun l => l.account_id == account_id)).map (fun l => l.debit)).sum

/-- `SUM(l.credit)` of the given lines for one account. -/
def acctCreditTotal (ls : List JournalLine) (account_id : Nat) : Int :=
  ((ls.filter (fun l => l.account_id == account_id)).map (fun l => l.credit)).sum

/-- The row loop of `close_period` over the grouped aggregation rows: emit a
debit line per income account with positive net credit and a credit line per
expense account with positive net debit, returning the closing lines together
with `income_total` and `expense_total`. -/
def closeRows (ml : List JournalLine) : List GLAccount → List LineInput × Int × Int
  | [] => ([], 0, 0)
  | a :: rest =>
    let r := closeRows ml rest
    let dr := acctDebitTotal ml a.id
    let cr := acctCreditTotal ml a.id
    match a.type with
    | .income =>
      let net_credit := cr - dr
      if net_credit > 0 then
        ({ account_id := a.id, description := some ("Close income " ++ a.code),
           debit := net_credit, credit := 0 } :: r.1, net_credit + r.2.1, r.2.2)
      else r
    | .expense =>
      let net_debit := dr - cr
      if net_debit > 0 then
        ({ account_id := a.id, description := some ("Close expense " ++ a.code),
           debit := 0, credit := net_debit } :: r.1, r.2.1, net_debit + r.2.2)
      else r
    | _ => r

/-- The aggregation step of `close_period` over a store: closing lines,
`income_total` and `expense_total` for the month. -/
def closeAggregate (st : Store) (first last : GLDate) : List LineInput × Int × Int :=
  closeRows (monthLines st first last) st.accounts

/-- The equity lines appended by `close_period` for a given net amount. -/
def equityLines (year month : Nat) (equity_account_id : Nat) (equity_amt : Int) :
    List LineInput :=
  if equity_amt > 0 then
    [{ account_id := equity_account_id,
       description := some ("Close " ++ ymStr year month ++ " Net Income"),
       debit := 0, credit := equity_amt }]
  else if equity_amt < 0 then
    [{ account_id := equity_account_id,
       description := some ("Close " ++ ymStr year month ++ " Net Loss"),
       debit := -equity_amt, credit := 0 }]
  else []

/-- `close_period` (`app/services/gl/periods.py`): advisory try-lock, locked
check, already-closed check against prior closings without posted reversals,
aggregation, closing-entry creation and posting dated on the last day of the
month, then period lock upsert. -/
def close_period (s : Session) (year month : Nat) (equity_account_id : Nat)
    (note : Option String) (created_by_user_id : Option Nat) (now : Nat)
    (auditOkCreate auditOkPost : Bool) : Session × Except GLErr JournalEntry :=
  if (year * 100 + month) ∈ s.busy then (s, .error .periodBusy)
  else
    let first : GLDate := ⟨year, month, 1⟩
    let last : GLDate := ⟨year, month, daysInMonth year month⟩
    if _is_period_locked s.pending first then (s, .error .closePeriodLocked)
    else
      let ids := closingIds s.pending year month
      if !ids.isEmpty && ids.any (fun cid => !(hasPostedReversalFor s.pending cid)) then
        (s, .error .alreadyClosed)
      else
        let agg := closeAggregate s.pending first last
        if agg.1.isEmpty && agg.2.1 == 0 && agg.2.2 == 0 then
          (s, .error .nothingToClose)
        else
          let equity_amt := agg.2.1 - agg.2.2
          match create_journal_entry s
            { entry_date := last,
              memo := some ("Closing Entry " ++ ymStr year month),
              currency_code := "PHP",
              reference_no := some (closeRef year month),
              source_module := some "closing",
              source_id := some (closeRef year month),
              lines := agg.1 ++ equityLines year month equity_account_id equity_amt,
              created_by_user_id := created_by_user_id } auditOkCreate with
          | (s1, .error e) => (s1, .error e)
          | (s1, .ok je0) =>
            match post_journal_entry s1 je0.id created_by_user_id now auditOkPost with
            | (s2, .error e) => (s2, .error e)
            | (s2, .ok je) =>
              (_set_period_lock s2 first true (some (optStrOr note "closed")), .ok je)

/-- `reopen_period`: unlock the month's period-lock row; closing entries are
left untouched. -/
def reopen_period (s : Session) (year month : Nat) (note : Option String) : Session :=
  _set_period_lock s ⟨year, month, 1⟩ false (some (optStrOr note "reopened"))

/-- Modelled from the spec: the close aggregation as §4.4(c) describes it,
restricted to posted lines of entries whose `source_module` is not one of
`{opening, closing, reversal}`.  This filter is absent from the aggregation SQL of the repository (both `close_period` revisions); the definition exists to
compare the line set intended by the spec with the implemented one. -/
def specNonSystem (e : JournalEntry) : Bool :=
  !(e.source_module == some "opening" || e.source_module == some "closing" ||
    e.source_module == some "reversal")

/-- Modelled from the spec: the month's posted, non-system line set. -/
def specMonthLines (st : Store) (first last : GLDate) : List JournalLine :=
  (st.entries.filter (fun e =>
    e.is_locked && specNonSystem e &&
    dateLE first e.entry_date && dateLE e.entry_date last)).flatMap (fun e => e.lines)

/-- Modelled from the spec: income/expense totals over the non-system posted
line set, computed with the same per-account netting as the code. -/
def specCloseTotals (st : Store) (first last : GLDate) : Int × Int :=
  (closeRows (specMonthLines st first last) st.accounts).2

/-- One call into the ledger service layer, with its audit-failure oracle
arguments. -/
inductive GLOp where
  | create (p : CreateParams) (auditOk : Bool)
  | post (je_id : Nat) (u : Option Nat) (now : Nat) (auditOk : Bool)
  | unpost (je_id : Nat) (u : Option Nat) (auditOk : Bool)
  | reverse (je_id : Nat) (as_of : Option GLDate) (u : Option Nat) (now : Nat)
      (okC okP : Bool)
  | close (year month equity_account_id : Nat) (note : Option String)
      (u : Option Nat) (now : Nat) (okC okP : Bool)
  | reopen (year month : Nat) (note : Option String)

/-- Apply one service call to the session state. -/
def applyOp (s : Session) : GLOp → Session
  | .create p ok => (create_journal_entry s p ok).1
  | .post id u now ok => (post_journal_entry s id u now ok).1
  | .unpost id u ok => (unpost_journal_entry s id u ok).1
  | .reverse id asOf u now okC okP => (reverse_journal_entry s id asOf u now okC okP).1
  | .close y m eq note u now okC okP => (close_period s y m eq note u now okC okP).1
  | .reopen y m note => reopen_period s y m note

/-- A fresh session over a chart of accounts: no journal entries, no period
locks, empty audit log, sequences at 1. -/
def initSession (accounts : List GLAccount) (busy : List Nat) : Session :=
  { committed := ⟨accounts, [], [], []⟩, pending := ⟨accounts, [], [], []⟩,
    next_je_id := 1, next_entry_no := 1, busy := busy }

/-- Session states reachable from a fresh session through the service layer. -/
def Reachable (s : Session) : Prop :=
  ∃ accounts busy ops, s = List.foldl applyOp (initSession accounts busy) ops

/-- The observable financial data of a stored journal line. -/
def lineData (l : JournalLine) : Nat × Int × Int × Option String :=
  (l.account_id, l.debit, l.credit, l.description)

/-- The observable financial data of a line input, as `create_journal_entry`
would store it. -/
def inputData (i : LineInput) : Nat × Int × Int × Option String :=
  (i.account_id, i.debit, i.credit, descOrNone i.description)

/-- Net debit-minus-credit effect of a list of lines on one account. -/
def netOn (account_id : Nat) (ls : List JournalLine) : Int :=
  ((ls.filter (fun l => l.account_id == account_id)).map
    (fun l => l.debit - l.credit)).sum

/-- Every entry of the store satisfies the balance invariant. -/
def balancedStore (st : Store) : Prop :=
  ∀ e ∈ st.entries, sumDebits e.lines = sumCredits e.lines

/-- Both the committed and the session view satisfy the balance invariant. -/
def sessionBalanced (s : Session) : Prop :=
  balancedStore s.committed ∧ balancedStore s.pending

/-- Between service calls the session has no uncommitted writes, and the id
sequence is ahead of every stored entry (primary-key freshness). -/
def WellFormed (s : Session) : Prop :=
  s.pending = s.committed ∧ ∀ e ∈ s.pending.entries, e.id < s.next_je_id

/-- Chart of accounts used by the concrete scenarios: a cash asset account,
an income account, an expense account and an equity account. -/
def demoAccounts : List GLAccount :=
  [ { id := 1, code := "A100", name := "Cash", type := .asset,
      normal_side := .debit, is_cash := true },
    { id := 4, code := "A400", name := "Offerings", type := .income,
      normal_side := .credit },
    { id := 5, code := "A500", name := "Supplies", type := .expense,
      normal_side := .debit },
    { id := 3, code := "E300", name := "Equity", type := .equity,
      normal_side := .credit } ]

/-- A posted ordinary entry: debit Cash 100.00, credit Offerings 100.00,
dated 2025-08-15. -/
def demoPostedEntry : JournalEntry :=
  { id := 1, entry_no := 1, entry_date := ⟨2025, 8, 15⟩, memo := none,
    currency_code := "PHP", reference_no := none, source_module := none,
    source_id := none, created_by_user_id := none,
    posted_by_user_id := some 7, posted_at := some 1, is_locked := true,
    locked_at := some 1,
    lines := [ { account_id := 1, line_no := 1, description := none,
                 debit := 10000, credit := 0 },
               { account_id := 4, line_no := 2, description := none,
                 debit := 0, credit := 10000 } ] }

/-- A posted entry tagged `source_module = "reversal"` that credits Cash
50.00 and debits Offerings 50.00, dated 2025-08-20. -/
def demoReversalEntry : JournalEntry :=
  { id := 2, entry_no := 2, entry_date := ⟨2025, 8, 20⟩, memo := none,
    currency_code := "PHP", reference_no := none,
    source_module := some "reversal", source_id := some "1",
    created_by_user_id := none, posted_by_user_id := some 7,
    posted_at := some 2, is_locked := true, locked_at := some 2,
    lines := [ { account_id := 4, line_no := 1, description := none,
                 debit := 5000, credit := 0 },
               { account_id := 1, line_no := 2, description := none,
                 debit := 0, credit := 5000 } ] }

/-- Session for the close-aggregation scenario: one ordinary posted entry
and one posted system (`reversal`) entry inside 2025-08. -/
def c1session : Session :=
  { committed := ⟨demoAccounts, [demoPostedEntry, demoReversalEntry], [], []⟩,
    pending := ⟨demoAccounts, [demoPostedEntry, demoReversalEntry], [], []⟩,
    next_je_id := 3, next_entry_no := 3, busy := [] }

/-- A draft entry dated 2025-08-15 (balanced). -/
def demoDraftEntry : JournalEntry :=
  { id := 1, entry_no := 1, entry_date := ⟨2025, 8, 15⟩, memo := none,
    currency_code := "PHP", reference_no := none, source_module := none,
    source_id := none, created_by_user_id := none,
    posted_by_user_id := none, posted_at := none, is_locked := false,
    locked_at := none,
    lines := [ { account_id := 1, line_no := 1, description := none,
                 debit := 10000, credit := 0 },
               { account_id := 4, line_no := 2, description := none,
                 debit := 0, credit := 10000 } ] }

/-- A posted copy of the draft entry under id 2. -/
def demoPostedEntry2 : JournalEntry :=
  { demoPostedEntry with id := 2, entry_no := 2 }

/-- Session with period 2025-08 locked, holding a draft entry (id 1) and a
posted entry (id 2), both dated 2025-08-15. -/
def c3session : Session :=
  { committed := ⟨demoAccounts, [demoDraftEntry, demoPostedEntry2],
      [⟨⟨2025, 8, 1⟩, true, some "closed"⟩], []⟩,
    pending := ⟨demoAccounts, [demoDraftEntry, demoPostedEntry2],
      [⟨⟨2025, 8, 1⟩, true, some "closed"⟩], []⟩,
    next_je_id := 3, next_entry_no := 3, busy := [] }

/-- Session holding one posted entry (id 1), no period locks. -/
def c4session : Session :=
  { committed := ⟨demoAccounts, [demoPostedEntry], [], []⟩,
    pending := ⟨demoAccounts, [demoPostedEntry], [], []⟩,
    next_je_id := 2, next_entry_no := 2, busy := [] }

/-- A posted closing entry for 2025-08 (reference `CLOSE-202508`) with no
posted reversal pointing at it. -/
def demoClosingEntry : JournalEntry :=
  { id := 2, entry_no := 2, entry_date := ⟨2025, 8, 31⟩,
    memo := some "Closing Entry 2025-08", currency_code := "PHP",
    reference_no := some "CLOSE-202508", source_module := some "closing",
    source_id := some "CLOSE-202508", created_by_user_id := none,
    posted_by_user_id := some 7, posted_at := some 3, is_locked := true,
    locked_at := some 3,
    lines := [ { account_id := 4, line_no := 1,
                 description := some "Close income A400",
                 debit := 10000, credit := 0 },
               { account_id := 3, line_no := 2,
                 description := some "Close 2025-08 Net Income",
                 debit := 0, credit := 10000 } ] }

/-- Session after a close of 2025-08 whose period lock was later reopened:
the posted closing entry remains and has no posted reversal. -/
def c5session : Session :=
  { committed := ⟨demoAccounts, [demoPostedEntry, demoClosingEntry], [], []⟩,
    pending := ⟨demoAccounts, [demoPostedEntry, demoClosingEntry], [], []⟩,
    next_je_id := 3, next_entry_no := 3, busy := [] }

/-- A create input whose single line references a nonexistent account and
whose totals are unbalanced (debit 5.00 against credit 0). -/
def c6badParams : CreateParams :=
  { entry_date := ⟨2025, 8, 15⟩,
    lines := [ { account_id := 99, debit := 500 } ] }

/-- A balanced but account-resolving create input with unequal totals:
debit Cash 5.00, credit Offerings 3.00. -/
def c6unbalancedParams : CreateParams :=
  { entry_date := ⟨2025, 8, 15⟩,
    lines := [ { account_id := 1, debit := 500 },
               { account_id := 4, credit := 300 } ] }

/-- Session holding one draft balanced entry (id 1), no period locks. -/
def c8session : Session :=
  { committed := ⟨demoAccounts, [demoDraftEntry], [], []⟩,
    pending := ⟨demoAccounts, [demoDraftEntry], [], []⟩,
    next_je_id := 2, next_entry_no := 2, busy := [] }

/-- The create parameters of the concrete scenario in §8 of the spec. -/
def c7params : CreateParams :=
  { entry_date := ⟨2025, 8, 15⟩,
    lines := [ { account_id := 1, debit := 10000 },
               { account_id := 4, credit := 10000 } ] }

/-- The result of reversing the posted entry id 1 in `c4session`. -/
def c4result : Session × Except GLErr JournalEntry :=
  reverse_journal_entry c4session 1 none (some 9) 14 true true

/-- The reversal entry produced in `c4result`. -/
def c4rev : JournalEntry := (c4result.2.toOption).getD default

/-- The result of reversing the posted entry id 1 in `c4session` when the
audit write of the internal posting step fails. -/
def c4failResult : Session × Except GLErr JournalEntry :=
  reverse_journal_entry c4session 1 none (some 9) 14 true false

/-- The mirror entry returned by `c4failResult`. -/
def c4failRev : JournalEntry := (c4failResult.2.toOption).getD default

/-- The result of closing 2025-08 over `c4session` into equity account 3. -/
def c7closeResult : Session × Except GLErr JournalEntry :=
  close_period c4session 2025 8 3 none (some 7) 12 true true

/-- The closing entry produced in `c7closeResult`. -/
def c7je : JournalEntry := (c7closeResult.2.toOption).getD default

/-- A session reached by creating and posting the §8 entry of the spec. -/
def c2session : Session :=
  List.foldl applyOp (initSession demoAccounts [])
    [GLOp.create c7params true, GLOp.post 1 (some 7) 11 true]

/-- The stored §8 entry inside `c2session`. -/
def c2entry : JournalEntry := (findEntry c2session.committed 1).getD default

/-! Lookup lemmas. -/

theorem findAccount_id {st : Store} {aid : Nat} {a : GLAccount}
    (h : findAccount st aid = some a) : a.id = aid := by
  have hp := List.find?_some h
  simpa using hp

theorem findL_id {es : List JournalEntry} {je_id : Nat} {e : JournalEntry}
    (h : findEntryL es je_id = some e) : e.id = je_id := by
  have hp := List.find?_some h
  simpa using hp

theorem findL_mem {es : List JournalEntry} {je_id : Nat} {e : JournalEntry}
    (h : findEntryL es je_id = some e) : e ∈ es :=
  List.mem_of_find?_eq_some h

theorem findL_eq_none {es : List JournalEntry} {je_id : Nat}
    (h : ∀ e ∈ es, e.id ≠ je_id) : findEntryL es je_id = none := by
  unfold findEntryL
  exact List.find?_eq_none.mpr (fun x hx => by simpa using h x hx)

theorem findL_append_self {es : List JournalEntry} {j : JournalEntry}
    (h : ∀ e ∈ es, e.id ≠ j.id) : findEntryL (es ++ [j]) j.id = some j := by
  unfold findEntryL
  rw [List.find?_append]
  have h0 : List.find? (fun e => e.id == j.id) es = none :=
    List.find?_eq_none.mpr (fun x hx => by simpa using h x hx)
  rw [h0]
  simp

theorem findL_append_left {es es2 : List JournalEntry} {je_id : Nat}
    {e : JournalEntry} (h : findEntryL es je_id = some e) :
    findEntryL (es ++ es2) je_id = some e := by
  unfold findEntryL at h ⊢
  rw [List.find?_append, h]
  rfl

theorem findL_map_update {es : List JournalEntry} {tid je_id : Nat}
    {g : JournalEntry → JournalEntry} (hg : ∀ e, (g e).id = e.id) :
    findEntryL (es.map (fun e => if e.id = tid then g e else e)) je_id
      = (findEntryL es je_id).map (fun e => if e.id = tid then g e else e) := by
  unfold findEntryL
  rw [List.find?_map]
  have hp : ((fun e : JournalEntry => e.id == je_id) ∘
      (fun e => if e.id = tid then g e else e))
      = (fun e : JournalEntry => e.id == je_id) := by
    funext e
    by_cases hat : e.id = tid
    · simp [Function.comp, hat, hg]
    · simp [Function.comp, hat]
  rw [hp]

/-! Unfolding lemmas for the sum helpers. -/

theorem inputDebits_cons (ln : LineInput) (rest : List LineInput) :
    inputDebits (ln :: rest) = ln.debit + inputDebits rest := by
  simp [inputDebits]

theorem inputCredits_cons (ln : LineInput) (rest : List LineInput) :
    inputCredits (ln :: rest) = ln.credit + inputCredits rest := by
  simp [inputCredits]

theorem sumDebits_cons (l : JournalLine) (ls : List JournalLine) :
    sumDebits (l :: ls) = l.debit + sumDebits ls := by
  simp [sumDebits]

theorem sumCredits_cons (l : JournalLine) (ls : List JournalLine) :
    sumCredits (l :: ls) = l.credit + sumCredits ls := by
  simp [sumCredits]

/-! `processLines` lemmas. -/

theorem processLines_ok {st : Store} :
    ∀ {ins : List LineInput} {n : Nat} {objs : List JournalLine} {td tc : Int},
    processLines st ins n = .ok (objs, td, tc) →
    objs.map lineData = ins.map inputData
    ∧ td = inputDebits ins ∧ tc = inputCredits ins
    ∧ sumDebits objs = td ∧ sumCredits objs = tc := by
  intro ins
  induction ins with
  | nil =>
    intro n objs td tc h
    simp only [processLines, Except.ok.injEq, Prod.mk.injEq] at h
    obtain ⟨h1, h2, h3⟩ := h
    subst h1; subst h2; subst h3
    simp [inputDebits, inputCredits, sumDebits, sumCredits]
  | cons ln rest ih =>
    intro n objs td tc h
    cases hf : findAccount st ln.account_id with
    | none =>
      simp only [processLines, hf] at h
      exact (Except.noConfusion h)
    | some acct =>
      simp only [processLines, hf] at h
      by_cases ho : oneSided ln.debit ln.credit = true
      · rw [if_pos ho] at h
        cases hr : processLines st rest (n + 1) with
        | error e =>
          simp only [hr] at h
          exact (Except.noConfusion h)
        | ok r =>
          obtain ⟨objs', td', tc'⟩ := r
          simp only [hr, Except.ok.injEq, Prod.mk.injEq] at h
          obtain ⟨h1, h2, h3⟩ := h
          subst h1; subst h2; subst h3
          obtain ⟨ihm, ihtd, ihtc, ihsd, ihsc⟩ := ih hr
          refine ⟨?_, ?_, ?_, ?_, ?_⟩
          · simp [lineData, inputData, findAccount_id hf, ihm]
          · rw [inputDebits_cons, ← ihtd]
          · rw [inputCredits_cons, ← ihtc]
          · rw [sumDebits_cons, ihsd]
          · rw [sumCredits_cons, ihsc]
      · rw [if_neg ho] at h
        exact (Except.noConfusion h)

theorem processLines_error {st : Store} :
    ∀ {ins : List LineInput} {n : Nat} {e : GLErr},
    processLines st ins n = .error e →
    (∃ a, e = .accountNotFound a) ∨ e = .oneSidedLine := by
  intro ins
  induction ins with
  | nil =>
    intro n e h
    exact absurd h (by simp [processLines])
  | cons ln rest ih =>
    intro n e h
    cases hf : findAccount st ln.account_id with
    | none =>
      simp only [processLines, hf, Except.error.injEq] at h
      exact Or.inl ⟨ln.account_id, h.symm⟩
    | some acct =>
      simp only [processLines, hf] at h
      by_cases ho : oneSided ln.debit ln.credit = true
      · rw [if_pos ho] at h
        cases hr : processLines st rest (n + 1) with
        | error e' =>
          simp only [hr, Except.error.injEq] at h
          subst h
          exact ih hr
        | ok r =>
          obtain ⟨objs', td', tc'⟩ := r
          simp only [hr] at h
          exact (Except.noConfusion h)
      · rw [if_neg ho] at h
        simp only [Except.error.injEq] at h
        exact Or.inr h.symm

theorem processLines_total {st : Store} :
    ∀ {ins : List LineInput} (n : Nat),
    (∀ ln ∈ ins, (findAccount st ln.account_id).isSome) →
    (∀ ln ∈ ins, oneSided ln.debit ln.credit = true) →
    ∃ objs, processLines st ins n = .ok (objs, inputDebits ins, inputCredits ins) := by
  intro ins
  induction ins with
  | nil =>
    intro n _ _
    exact ⟨[], by simp [processLines, inputDebits, inputCredits]⟩
  | cons ln rest ih =>
    intro n hacc hone
    obtain ⟨acct, hf⟩ := Option.isSome_iff_exists.mp (hacc ln (by simp))
    obtain ⟨objs', hr⟩ := ih (n + 1) (fun l hl => hacc l (by simp [hl]))
      (fun l hl => hone l (by simp [hl]))
    refine ⟨{ account_id := acct.id, line_no := lineNoOr ln.line_no n,
              description := descOrNone ln.description,
              debit := ln.debit, credit := ln.credit } :: objs', ?_⟩
    simp only [processLines, hf]
    rw [if_pos (hone ln (by simp))]
    rw [hr]
    simp [inputDebits, inputCredits]

/-! Characterization of successful `create_journal_entry` and
`post_journal_entry` calls. -/

theorem create_ok {s : Session} {p : CreateParams} {ok : Bool} {s' : Session}
    {je : JournalEntry}
    (hwf : WellFormed s)
    (h : create_journal_entry s p ok = (s', .ok je)) :
    ∃ objs,
      processLines s.pending p.lines 1
        = .ok (objs, inputDebits p.lines, inputCredits p.lines)
      ∧ inputDebits p.lines = inputCredits p.lines
      ∧ ok = true
      ∧ je = newEntry s p objs
      ∧ s'.pending = s'.committed
      ∧ s'.committed.entries = s.pending.entries ++ [newEntry s p objs]
      ∧ s'.committed.accounts = s.pending.accounts
      ∧ s'.committed.period_locks = s.pending.period_locks
      ∧ s'.next_je_id = s.next_je_id + 1
      ∧ s'.next_entry_no = s.next_entry_no + 1
      ∧ s'.busy = s.busy := by
  obtain ⟨hsync, hfresh⟩ := hwf
  cases hpl : processLines s.pending p.lines 1 with
  | error e =>
    simp only [create_journal_entry, hpl, Prod.mk.injEq] at h
    exact (Except.noConfusion h.2)
  | ok r =>
    obtain ⟨objs, td, tc⟩ := r
    simp only [create_journal_entry, hpl] at h
    by_cases hne : td ≠ tc
    · rw [if_pos hne] at h
      simp only [Prod.mk.injEq] at h
      exact (Except.noConfusion h.2)
    · rw [if_neg hne] at h
      push_neg at hne
      obtain ⟨hmap, htd, htc, hsd, hsc⟩ := processLines_ok hpl
      have hfreshp : ∀ e ∈ s.pending.entries, e.id ≠ (newEntry s p objs).id := by
        intro e he
        have := hfresh e he
        simp only [newEntry]
        omega
      cases ok with
      | false =>
        have hnone : findEntry (createCommit s (newEntry s p objs) false).committed
            (newEntry s p objs).id = none := by
          simp only [createCommit, commit, _log, rollback, Bool.false_eq_true,
            if_false, findEntry]
          exact findL_eq_none (by rw [← hsync]; exact hfreshp)
        rw [hnone] at h
        simp only [Prod.mk.injEq] at h
        exact (Except.noConfusion h.2)
      | true =>
        have hsome : findEntry (createCommit s (newEntry s p objs) true).committed
            (newEntry s p objs).id = some (newEntry s p objs) := by
          simp only [createCommit, commit, _log, if_true, findEntry]
          exact findL_append_self hfreshp
        rw [hsome] at h
        simp only [Prod.mk.injEq, Except.ok.injEq] at h
        obtain ⟨hs', hje⟩ := h
        subst hs'
        refine ⟨objs, ?_, ?_, rfl, hje.symm, ?_, ?_, ?_, ?_, ?_, ?_, ?_⟩
        · rw [htd, htc]
        · rw [← htd, ← htc]; exact hne
        all_goals simp [createCommit, commit, _log]

theorem post_ok {s : Session} {je_id : Nat} {u : Option Nat} {now : Nat}
    {ok : Bool} {s' : Session} {je' je : JournalEntry}
    (hfind : findEntry s.pending je_id = some je)
    (hdraft : je.is_locked = false)
    (hsync : s.pending = s.committed)
    (h : post_journal_entry s je_id u now ok = (s', .ok je')) :
    (ok = true ∧ je' = postFlags u now je
      ∧ s'.pending = s'.committed
      ∧ s'.committed.entries
          = s.pending.entries.map (fun e => if e.id = je_id then postFlags u now e else e)
      ∧ s'.committed.accounts = s.pending.accounts
      ∧ s'.committed.period_locks = s.pending.period_locks
      ∧ s'.next_je_id = s.next_je_id
      ∧ s'.busy = s.busy)
    ∨ (ok = false ∧ je' = je ∧ s' = s) := by
  simp only [post_journal_entry, hfind, hdraft, Bool.false_eq_true, if_false] at h
  by_cases hpl : _is_period_locked s.pending je.entry_date = true
  · rw [if_pos hpl] at h
    simp only [Prod.mk.injEq] at h
    exact (Except.noConfusion h.2)
  · rw [if_neg hpl] at h
    by_cases hbal : sumDebits je.lines ≠ sumCredits je.lines
    · rw [if_pos hbal] at h
      simp only [Prod.mk.injEq] at h
      exact (Except.noConfusion h.2)
    · rw [if_neg hbal] at h
      have hgid : ∀ e, (postFlags u now e).id = e.id := fun e => rfl
      cases ok with
      | false =>
        right
        have hc : (postCommit s je_id u now false).committed = s.committed := by
          simp [postCommit, commit, _log, rollback]
        have hfind' : findEntry (postCommit s je_id u now false).committed je_id
            = some je := by
          rw [hc, ← hsync]
          exact hfind
        rw [hfind'] at h
        simp only [Prod.mk.injEq, Except.ok.injEq] at h
        obtain ⟨hs', hje⟩ := h
        refine ⟨rfl, hje.symm, ?_⟩
        rw [← hs']
        obtain ⟨cm, pd, ni, ne, bz⟩ := s
        have hpc : pd = cm := hsync
        simp only [postCommit, commit, _log, rollback, Bool.false_eq_true, if_false]
        rw [hpc]
      | true =>
        left
        have hc : (postCommit s je_id u now true).committed
            = { (updateEntry s.pending je_id (postFlags u now)) with
                audit_log := (updateEntry s.pending je_id (postFlags u now)).audit_log
                  ++ [⟨"journal_entry", toString je_id, "post", some (toString je_id)⟩] } := by
          simp [postCommit, commit, _log]
        have hfind' : findEntry (postCommit s je_id u now true).committed je_id
            = some (postFlags u now je) := by
          rw [hc]
          simp only [findEntry, updateEntry]
          rw [findL_map_update hgid]
          unfold findEntry at hfind
          rw [hfind]
          simp [findL_id hfind]
        rw [hfind'] at h
        simp only [Prod.mk.injEq, Except.ok.injEq] at h
        obtain ⟨hs', hje⟩ := h
        subst hs'
        refine ⟨rfl, hje.symm, ?_, ?_, ?_, ?_, ?_, ?_⟩
        all_goals simp [postCommit, commit, _log, updateEntry]

/-! Per-account netting lemmas. -/

theorem netOn_cons (a : Nat) (l : JournalLine) (ls : List JournalLine) :
    netOn a (l :: ls)
      = (if l.account_id = a then l.debit - l.credit else 0) + netOn a ls := by
  by_cases h : l.account_id = a
  · simp [netOn, List.filter_cons, h]
  · simp [netOn, List.filter_cons, h]

theorem mirror_map (src : JournalEntry) :
    (mirrorLines src).map inputData
      = src.lines.map (fun l => (l.account_id, l.credit, l.debit,
          descOrNone (some ("Reversal of JE " ++ toString src.entry_no)))) := by
  unfold mirrorLines
  rw [List.map_map]
  rfl

theorem netOn_mirror (a : Nat) (g : JournalLine → Option String) :
    ∀ (ls rs : List JournalLine),
    rs.map lineData = ls.map (fun l => (l.account_id, l.credit, l.debit, g l)) →
    netOn a ls + netOn a rs = 0 := by
  intro ls
  induction ls with
  | nil =>
    intro rs h
    simp only [List.map_nil, List.map_eq_nil_iff] at h
    subst h
    simp [netOn]
  | cons l lt ih =>
    intro rs h
    cases rs with
    | nil => simp at h
    | cons r rt =>
      simp only [List.map_cons, List.cons.injEq] at h
      obtain ⟨h1, h2⟩ := h
      simp only [lineData, Prod.mk.injEq] at h1
      obtain ⟨ha1, ha2, ha3, _⟩ := h1
      have hrec := ih rt h2
      rw [netOn_cons, netOn_cons, ha1]
      by_cases hla : l.account_id = a
      · rw [if_pos hla, if_pos hla, ha2, ha3]
        omega
      · rw [if_neg hla, if_neg hla]
        omega

/-- Claim C9: re-posting an already posted entry is a pure no-op that happens
before the period-lock check, so it succeeds (returns the entry unchanged and
leaves the state untouched) even when the period of the entry is locked. -/
theorem C9_repost_is_noop_even_in_locked_period (s : Session) (je_id : Nat)
    (je : JournalEntry) (u : Option Nat) (now : Nat) (ok : Bool)
    (hfind : findEntry s.pending je_id = some je)
    (hposted : je.is_locked = true) :
    post_journal_entry s je_id u now ok = (s, .ok je) := by
  simp only [post_journal_entry, hfind, hposted, if_true]

/-- Witness for C9: in a session whose 2025-08 period is locked, re-posting
the posted entry id 2 (dated 2025-08-15) returns it unchanged. -/
theorem C9_repost_is_noop_witness :
    _is_period_locked c3session.pending ⟨2025, 8, 15⟩ = true
    ∧ post_journal_entry c3session 2 (some 7) 11 true
        = (c3session, .ok demoPostedEntry2) := by
  refine ⟨by decide, ?_⟩
  exact C9_repost_is_noop_even_in_locked_period c3session 2 demoPostedEntry2
    (some 7) 11 true (by decide) (by decide)

/-- Counterexample to C4 as stated: with the audit write of the internal
posting step failing, reversing the posted entry id 1 in `c4session` still
returns successfully, but the mirror entry it returns — the one left in the
committed store — is a draft (`is_locked = false`), not a posted entry. -/
theorem C4_counterexample_reverse_ok_with_draft_mirror :
    c4failResult.2 = .ok c4failRev
    ∧ c4failRev.is_locked = false
    ∧ findEntry c4failResult.1.committed c4failRev.id = some c4failRev := by
  exact ⟨rfl, rfl, rfl⟩

/-- Claim C4 (amended): a successful reversal of a posted entry yields a
new, separate entry whose lines mirror those of the source (debit and credit
swapped on the same accounts), every touched account nets to zero over the
pair, and the source entry is still present, posted, and unchanged.  The new
entry is posted exactly when the audit write of the internal posting step
succeeds; when that audit insert raises, the rollback in the audit handler
(the C8 defect) leaves the mirror committed as a draft while the reversal
still returns it without error. -/
theorem C4_reverse_builds_mirror_amended (s : Session) (je_id : Nat)
    (as_of : Option GLDate) (u : Option Nat) (now : Nat) (okC okP : Bool)
    (s' : Session) (src rev : JournalEntry)
    (hwf : WellFormed s)
    (hsrc : findEntry s.pending je_id = some src)
    (h : reverse_journal_entry s je_id as_of u now okC okP = (s', .ok rev)) :
    src.is_locked = true
    ∧ (okP = true → rev.is_locked = true)
    ∧ (okP = false → rev.is_locked = false)
    ∧ rev.id ≠ src.id
    ∧ rev.lines.map lineData = (mirrorLines src).map inputData
    ∧ (∀ a : Nat, netOn a src.lines + netOn a rev.lines = 0)
    ∧ findEntry s'.committed je_id = some src := by
  simp only [reverse_journal_entry, hsrc] at h
  by_cases hlk : src.is_locked = true
  case neg =>
    have hlk' : src.is_locked = false := by
      cases hb : src.is_locked
      · rfl
      · exact absurd hb hlk
    rw [hlk'] at h
    simp only [Bool.not_false, if_true, Prod.mk.injEq] at h
    exact (Except.noConfusion h.2)
  case pos =>
    rw [hlk] at h
    simp only [Bool.not_true, Bool.false_eq_true, if_false] at h
    by_cases hpd : _is_period_locked s.pending (as_of.getD src.entry_date) = true
    · rw [if_pos hpd] at h
      simp only [Prod.mk.injEq] at h
      exact (Except.noConfusion h.2)
    · rw [if_neg hpd] at h
      split at h
      case _ s1 e heq =>
        simp only [Prod.mk.injEq] at h
        exact (Except.noConfusion h.2)
      case _ s1 rev0 heq =>
        obtain ⟨objs, hplines, hbal, hokC, hrev0, hsync1, hentries1, haccts1,
          hlocks1, hni1, hneno1, hbusy1⟩ := create_ok hwf heq
        obtain ⟨hmap, _, _, _, _⟩ := processLines_ok hplines
        have hrev0id : rev0.id = s.next_je_id := by rw [hrev0]; rfl
        have hsrcid : src.id = je_id := findL_id hsrc
        have hsrclt : src.id < s.next_je_id := hwf.2 src (findL_mem hsrc)
        have hfind1 : findEntry s1.pending rev0.id = some rev0 := by
          rw [hrev0]
          unfold findEntry
          rw [hsync1, hentries1]
          exact findL_append_self (by
            intro e he
            have := hwf.2 e he
            simp only [newEntry]
            omega)
        have hdraft1 : rev0.is_locked = false := by rw [hrev0]; rfl
        rcases post_ok hfind1 hdraft1 hsync1 h with
          ⟨hokP, hrevEq, hsync2, hentries2, _, _, _, _⟩ | ⟨hokP, hrevEq, hs'eq⟩
        · have hrevlines : rev.lines = objs := by
            rw [hrevEq, hrev0]
            rfl
          have hrevid : rev.id = s.next_je_id := by
            rw [hrevEq]
            simpa [postFlags] using hrev0id
          refine ⟨hlk, fun _ => ?_, fun hf => ?_, ?_, ?_, ?_, ?_⟩
          · rw [hrevEq]; rfl
          · rw [hokP] at hf
            exact Bool.noConfusion hf
          · omega
          · rw [hrevlines]
            exact hmap
          · intro a
            refine netOn_mirror a
              (fun _ => descOrNone (some ("Reversal of JE " ++ toString src.entry_no)))
              src.lines rev.lines ?_
            rw [hrevlines, hmap]
            exact mirror_map src
          · unfold findEntry
            have hgid : ∀ e, (postFlags u now e).id = e.id := fun e => rfl
            rw [hentries2, hsync1, hentries1]
            rw [findL_map_update hgid]
            rw [findL_append_left hsrc]
            have hne : ¬(src.id = rev0.id) := by omega
            simp [hne]
        · have hrevlines : rev.lines = objs := by
            rw [hrevEq, hrev0]
            rfl
          have hrevid : rev.id = s.next_je_id := by
            rw [hrevEq]
            exact hrev0id
          refine ⟨hlk, fun ht => ?_, fun _ => ?_, ?_, ?_, ?_, ?_⟩
          · rw [hokP] at ht
            exact Bool.noConfusion ht
          · rw [hrevEq, hrev0]
            rfl
          · omega
          · rw [hrevlines]
            exact hmap
          · intro a
            refine netOn_mirror a
              (fun _ => descOrNone (some ("Reversal of JE " ++ toString src.entry_no)))
              src.lines rev.lines ?_
            rw [hrevlines, hmap]
            exact mirror_map src
          · rw [hs'eq]
            unfold findEntry
            rw [hentries1]
            exact findL_append_left hsrc

/-- Witness for the amended C4: reversing the posted entry id 1 of
`c4session` with the posting-step audit write succeeding produces a posted
mirror entry; Cash and Offerings each net to zero across the pair, and the
source is still stored unchanged. -/
theorem C4_reverse_builds_mirror_amended_witness :
    demoPostedEntry.is_locked = true
    ∧ c4rev.is_locked = true
    ∧ c4rev.id ≠ demoPostedEntry.id
    ∧ netOn 1 demoPostedEntry.lines + netOn 1 c4rev.lines = 0
    ∧ netOn 4 demoPostedEntry.lines + netOn 4 c4rev.lines = 0
    ∧ findEntry c4result.1.committed 1 = some demoPostedEntry := by
  have happ := C4_reverse_builds_mirror_amended c4session 1 none (some 9) 14 true
    true c4result.1 demoPostedEntry c4rev ⟨rfl, by decide⟩ (by decide) (by rfl)
  obtain ⟨w1, wpost, _, w3, _, w5, w6⟩ := happ
  exact ⟨w1, wpost rfl, w3, w5 1, w5 4, w6⟩

/-- Claim C7: a successful `close_period` returns an entry whose lines are
exactly the income/expense closing lines of the aggregation followed by the equity
lines for `equity_amount = income_total - expense_total`: a credit labelled
"Net Income" when positive, a debit of the absolute value labelled "Net Loss"
when negative, and no equity line when zero. -/
theorem C7_close_equity_line (s : Session) (year month equity_account_id : Nat)
    (note : Option String) (u : Option Nat) (now : Nat) (okC okP : Bool)
    (s' : Session) (je : JournalEntry)
    (hwf : WellFormed s)
    (h : close_period s year month equity_account_id note u now okC okP
          = (s', .ok je)) :
    je.lines.map lineData
      = (closeAggregate s.pending ⟨year, month, 1⟩
           ⟨year, month, daysInMonth year month⟩).1.map inputData
        ++ (equityLines year month equity_account_id
             ((closeAggregate s.pending ⟨year, month, 1⟩
                ⟨year, month, daysInMonth year month⟩).2.1
              - (closeAggregate s.pending ⟨year, month, 1⟩
                ⟨year, month, daysInMonth year month⟩).2.2)).map inputData := by
  simp only [close_period] at h
  by_cases hbusy : (year * 100 + month) ∈ s.busy
  · rw [if_pos hbusy] at h
    simp only [Prod.mk.injEq] at h
    exact (Except.noConfusion h.2)
  · rw [if_neg hbusy] at h
    by_cases hlock : _is_period_locked s.pending ⟨year, month, 1⟩ = true
    · rw [if_pos hlock] at h
      simp only [Prod.mk.injEq] at h
      exact (Except.noConfusion h.2)
    · rw [if_neg hlock] at h
      by_cases hclosed : (!(closingIds s.pending year month).isEmpty
          && (closingIds s.pending year month).any
               (fun cid => !(hasPostedReversalFor s.pending cid))) = true
      · rw [if_pos hclosed] at h
        simp only [Prod.mk.injEq] at h
        exact (Except.noConfusion h.2)
      · rw [if_neg hclosed] at h
        by_cases hnothing : ((closeAggregate s.pending ⟨year, month, 1⟩
            ⟨year, month, daysInMonth year month⟩).1.isEmpty
            && (closeAggregate s.pending ⟨year, month, 1⟩
                ⟨year, month, daysInMonth year month⟩).2.1 == 0
            && (closeAggregate s.pending ⟨year, month, 1⟩
                ⟨year, month, daysInMonth year month⟩).2.2 == 0) = true
        · rw [if_pos hnothing] at h
          simp only [Prod.mk.injEq] at h
          exact (Except.noConfusion h.2)
        · rw [if_neg hnothing] at h
          split at h
          case _ s1 e heq =>
            simp only [Prod.mk.injEq] at h
            exact (Except.noConfusion h.2)
          case _ s1 je0 heq =>
            obtain ⟨objs, hplines, _, _, hje0, hsync1, hentries1, _, _, _, _, _⟩ :=
              create_ok hwf heq
            obtain ⟨hmap, _, _, _, _⟩ := processLines_ok hplines
            split at h
            case _ s2 e heq2 =>
              simp only [Prod.mk.injEq] at h
              exact (Except.noConfusion h.2)
            case _ s2 je2 heq2 =>
              simp only [Prod.mk.injEq, Except.ok.injEq] at h
              obtain ⟨hs', hje2⟩ := h
              have hfind1 : findEntry s1.pending je0.id = some je0 := by
                rw [hje0]
                unfold findEntry
                rw [hsync1, hentries1]
                exact findL_append_self (by
                  intro e he
                  have := hwf.2 e he
                  simp only [newEntry]
                  omega)
              have hdraft1 : je0.is_locked = false := by rw [hje0]; rfl
              have hjelines : je.lines = objs := by
                rcases post_ok hfind1 hdraft1 hsync1 heq2 with
                  ⟨_, hje2', _⟩ | ⟨_, hje2', _⟩
                · rw [← hje2, hje2', hje0]
                  rfl
                · rw [← hje2, hje2', hje0]
                  rfl
              rw [hjelines, hmap]
              exact List.map_append inputData _ _

/-- Witness for C7: closing 2025-08 over `c4session` (one posted income
entry of 100.00) produces lines that are the income closing line followed by
a Net Income credit of 100.00 to the equity account. -/
theorem C7_close_equity_line_witness :
    c7je.lines.map lineData
      = (closeAggregate c4session.pending ⟨2025, 8, 1⟩
           ⟨2025, 8, daysInMonth 2025 8⟩).1.map inputData
        ++ (equityLines 2025 8 3
             ((closeAggregate c4session.pending ⟨2025, 8, 1⟩
                ⟨2025, 8, daysInMonth 2025 8⟩).2.1
              - (closeAggregate c4session.pending ⟨2025, 8, 1⟩
                ⟨2025, 8, daysInMonth 2025 8⟩).2.2)).map inputData :=
  C7_close_equity_line c4session 2025 8 3 none (some 7) 12 true true
    c7closeResult.1 c7je ⟨rfl, by decide⟩ (by rfl)

/-- Counterexample to C3 as stated: with period 2025-08 locked, `PostEntry`
on the already-posted entry id 2 dated 2025-08-15 succeeds (returns the entry
with no error) instead of failing with `PeriodLockedError`. -/
theorem C3_counterexample_repost_succeeds_in_locked_period :
    _is_period_locked c3session.pending ⟨2025, 8, 15⟩ = true
    ∧ demoPostedEntry2.entry_date = ⟨2025, 8, 15⟩
    ∧ post_journal_entry c3session 2 (some 9) 21 true
        = (c3session, .ok demoPostedEntry2) := by
  refine ⟨by decide, rfl, ?_⟩
  rfl

/-- Claim C3 (amended): in a locked period, posting a *draft* entry, posting
out of ... unposting a *posted* entry, and reversing into the locked month
all fail with the period-locked error; the already-posted/already-draft
no-op branches run before the lock check. -/
theorem C3_locked_period_blocks_mutations (s : Session) (d : GLDate)
    (hlock : _is_period_locked s.pending d = true) :
    (∀ je_id je u now ok, findEntry s.pending je_id = some je →
        je.is_locked = false → je.entry_date = d →
        post_journal_entry s je_id u now ok = (s, .error .postPeriodLocked))
    ∧ (∀ je_id je u ok, findEntry s.pending je_id = some je →
        je.is_locked = true → je.entry_date = d →
        unpost_journal_entry s je_id u ok = (s, .error .unpostPeriodLocked))
    ∧ (∀ je_id je as_of u now okC okP, findEntry s.pending je_id = some je →
        je.is_locked = true → as_of.getD je.entry_date = d →
        reverse_journal_entry s je_id as_of u now okC okP
          = (s, .error .reversePeriodLocked)) := by
  refine ⟨?_, ?_, ?_⟩
  · intro je_id je u now ok hfind hdraft hdate
    simp only [post_journal_entry, hfind, hdraft, Bool.false_eq_true, if_false]
    rw [hdate, if_pos hlock]
  · intro je_id je u ok hfind hposted hdate
    simp only [unpost_journal_entry, hfind, hposted, Bool.not_true,
      Bool.false_eq_true, if_false]
    rw [hdate, if_pos hlock]
  · intro je_id je as_of u now okC okP hfind hposted hdate
    simp only [reverse_journal_entry, hfind, hposted, Bool.not_true,
      Bool.false_eq_true, if_false]
    rw [hdate, if_pos hlock]

/-- Witness for the amended C3 over `c3session` (2025-08 locked): the draft
entry cannot be posted, the posted entry cannot be unposted, and the posted
entry cannot be reversed into the locked month. -/
theorem C3_locked_period_blocks_mutations_witness :
    post_journal_entry c3session 1 (some 7) 11 true
        = (c3session, .error .postPeriodLocked)
    ∧ unpost_journal_entry c3session 2 (some 7) true
        = (c3session, .error .unpostPeriodLocked)
    ∧ reverse_journal_entry c3session 2 none (some 7) 11 true true
        = (c3session, .error .reversePeriodLocked) := by
  have happ := C3_locked_period_blocks_mutations c3session ⟨2025, 8, 15⟩ (by decide)
  exact ⟨happ.1 1 demoDraftEntry (some 7) 11 true (by decide) (by decide) (by decide),
    happ.2.1 2 demoPostedEntry2 (some 7) true (by decide) (by decide) (by decide),
    happ.2.2 2 demoPostedEntry2 none (some 7) 11 true true (by decide) (by decide)
      (by decide)⟩

/-- Claim C1 (code bug): the close aggregation has no `source_module`
filter.  Over `c1session` — ordinary posted income of 100.00 plus a posted
`source_module="reversal"` entry that debits income 50.00, both inside
2025-08 — the produced closing entry debits income 50.00 and credits equity
50.00, whereas the aggregation the spec mandates over non-system posted lines yields an
income total of 100.00. -/
theorem C1_close_aggregation_includes_system_entries :
    (close_period c1session 2025 8 3 none none 9 true true).2.toOption.map
        (fun je => je.lines.map (fun l => (l.account_id, l.debit, l.credit)))
      = some [(4, 5000, 0), (3, 0, 5000)]
    ∧ (specCloseTotals c1session.pending ⟨2025, 8, 1⟩ ⟨2025, 8, 31⟩).1
        - (specCloseTotals c1session.pending ⟨2025, 8, 1⟩ ⟨2025, 8, 31⟩).2
      = 10000 := by
  exact ⟨rfl, rfl⟩

/-- Claim C8 (code bug): the exception handler of `_log` calls `db.rollback()`,
which discards the pending business writes.  With the audit insert raising:
posting returns without error but the entry stays a draft and the committed
store is unchanged, and a create loses its new entry (the refresh then
fails) with nothing persisted.  With the audit write succeeding, the same
post commits the posting flags. -/
theorem C8_audit_failure_rolls_back_business_writes :
    (post_journal_entry c8session 1 (some 7) 11 false).2 = .ok demoDraftEntry
    ∧ (post_journal_entry c8session 1 (some 7) 11 false).1 = c8session
    ∧ (post_journal_entry c8session 1 (some 7) 11 true).2
        = .ok (postFlags (some 7) 11 demoDraftEntry)
    ∧ (create_journal_entry (initSession demoAccounts []) c7params false).2
        = .error .refreshFailed
    ∧ (create_journal_entry (initSession demoAccounts [])
        c7params false).1.committed.entries = [] := by
  exact ⟨rfl, rfl, rfl, rfl, rfl⟩

/-- Claim C10: a create call with an empty lines collection succeeds — both
totals are zero, the balance check passes, and a zero-line draft entry is
persisted in the committed store. -/
theorem C10_create_empty_lines_succeeds (s : Session) (p : CreateParams)
    (hfresh : ∀ e ∈ s.pending.entries, e.id ≠ s.next_je_id)
    (hlines : p.lines = []) :
    (create_journal_entry s p true).2 = .ok (newEntry s p [])
    ∧ (newEntry s p []).lines = []
    ∧ (newEntry s p []).is_locked = false
    ∧ findEntry (create_journal_entry s p true).1.committed s.next_je_id
        = some (newEntry s p []) := by
  have hpl : processLines s.pending p.lines 1 = .ok ([], 0, 0) := by
    rw [hlines]
    rfl
  have hfind : findEntry (createCommit s (newEntry s p []) true).committed
      (newEntry s p []).id = some (newEntry s p []) := by
    simp only [createCommit, commit, _log, if_true, findEntry]
    exact findL_append_self hfresh
  have hmain : create_journal_entry s p true
      = (createCommit s (newEntry s p []) true, .ok (newEntry s p [])) := by
    simp only [create_journal_entry, hpl]
    rw [if_neg (show ¬((0 : Int) ≠ 0) by simp)]
    rw [hfind]
  refine ⟨by rw [hmain], rfl, rfl, ?_⟩
  rw [hmain]
  exact hfind

/-- Witness for C10: creating an entry with no lines on a fresh session
succeeds and yields the zero-line draft entry. -/
theorem C10_create_empty_lines_witness :
    (create_journal_entry (initSession demoAccounts [])
        { entry_date := ⟨2025, 1, 15⟩ } true).2
      = .ok (newEntry (initSession demoAccounts []) { entry_date := ⟨2025, 1, 15⟩ } []) :=
  (C10_create_empty_lines_succeeds (initSession demoAccounts [])
    { entry_date := ⟨2025, 1, 15⟩ } (by decide) rfl).1

/-- Counterexample to C6 as stated: an unbalanced create whose line names a
nonexistent account fails with the account-not-found error, not with the
"not balanced" validation error. -/
theorem C6_counterexample_missing_account_precedes_balance :
    inputDebits c6badParams.lines ≠ inputCredits c6badParams.lines
    ∧ (create_journal_entry (initSession demoAccounts []) c6badParams true).2
        = .error (.accountNotFound 99) := by
  exact ⟨by decide, rfl⟩

/-- Claim C6 (amended): when every line resolves to an existing account and
satisfies the one-sided rule but the totals differ, the create fails with
the "not balanced" error and returns the session unchanged (nothing is
persisted). -/
theorem C6_unbalanced_create_rejected_atomically (s : Session) (p : CreateParams)
    (ok : Bool)
    (hacc : ∀ ln ∈ p.lines, (findAccount s.pending ln.account_id).isSome)
    (hone : ∀ ln ∈ p.lines, oneSided ln.debit ln.credit = true)
    (hne : inputDebits p.lines ≠ inputCredits p.lines) :
    create_journal_entry s p ok = (s, .error .notBalanced) := by
  obtain ⟨objs, hpl⟩ := processLines_total 1 hacc hone
  simp only [create_journal_entry, hpl]
  rw [if_pos hne]

/-- Witness for the amended C6: debit Cash 5.00 against credit Offerings
3.00 is rejected as not balanced with the session unchanged. -/
theorem C6_unbalanced_create_rejected_witness :
    create_journal_entry (initSession demoAccounts []) c6unbalancedParams true
      = (initSession demoAccounts [], .error .notBalanced) :=
  C6_unbalanced_create_rejected_atomically (initSession demoAccounts [])
    c6unbalancedParams true (by decide) (by decide) (by decide)

/-! Error ranges: create and post never raise the already-closed conflict. -/

theorem create_error_ne_alreadyClosed {s : Session} {p : CreateParams}
    {ok : Bool} {s' : Session} {e : GLErr}
    (h : create_journal_entry s p ok = (s', .error e)) : e ≠ .alreadyClosed := by
  cases hpl : processLines s.pending p.lines 1 with
  | error e0 =>
    simp only [create_journal_entry, hpl, Prod.mk.injEq, Except.error.injEq] at h
    rcases processLines_error hpl with ⟨a, ha⟩ | ha
    · rw [← h.2, ha]
      exact fun hx => GLErr.noConfusion hx
    · rw [← h.2, ha]
      exact fun hx => GLErr.noConfusion hx
  | ok r =>
    obtain ⟨objs, td, tc⟩ := r
    simp only [create_journal_entry, hpl] at h
    by_cases hne : td ≠ tc
    · rw [if_pos hne] at h
      simp only [Prod.mk.injEq, Except.error.injEq] at h
      rw [← h.2]
      exact fun hx => GLErr.noConfusion hx
    · rw [if_neg hne] at h
      cases hf : findEntry (createCommit s (newEntry s p objs) ok).committed
          (newEntry s p objs).id with
      | some je2 =>
        simp only [hf, Prod.mk.injEq] at h
        exact absurd h.2 (fun hx => Except.noConfusion hx)
      | none =>
        simp only [hf, Prod.mk.injEq, Except.error.injEq] at h
        rw [← h.2]
        exact fun hx => GLErr.noConfusion hx

theorem post_error_ne_alreadyClosed {s : Session} {je_id : Nat}
    {u : Option Nat} {now : Nat} {ok : Bool} {s' : Session} {e : GLErr}
    (h : post_journal_entry s je_id u now ok = (s', .error e)) :
    e ≠ .alreadyClosed := by
  cases hf : findEntry s.pending je_id with
  | none =>
    simp only [post_journal_entry, hf, Prod.mk.injEq, Except.error.injEq] at h
    rw [← h.2]
    exact fun hx => GLErr.noConfusion hx
  | some je =>
    simp only [post_journal_entry, hf] at h
    cases hl : je.is_locked with
    | true =>
      rw [hl] at h
      simp only [if_true, Prod.mk.injEq] at h
      exact absurd h.2 (fun hx => Except.noConfusion hx)
    | false =>
      rw [hl] at h
      simp only [Bool.false_eq_true, if_false] at h
      by_cases hpd : _is_period_locked s.pending je.entry_date = true
      · rw [if_pos hpd] at h
        simp only [Prod.mk.injEq, Except.error.injEq] at h
        rw [← h.2]
        exact fun hx => GLErr.noConfusion hx
      · rw [if_neg hpd] at h
        by_cases hbal : sumDebits je.lines ≠ sumCredits je.lines
        · rw [if_pos hbal] at h
          simp only [Prod.mk.injEq, Except.error.injEq] at h
          rw [← h.2]
          exact fun hx => GLErr.noConfusion hx
        · rw [if_neg hbal] at h
          cases hf2 : findEntry (postCommit s je_id u now ok).committed je_id with
          | some je2 =>
            simp only [hf2, Prod.mk.injEq] at h
            exact absurd h.2 (fun hx => Except.noConfusion hx)
          | none =>
            simp only [hf2, Prod.mk.injEq, Except.error.injEq] at h
            rw [← h.2]
            exact fun hx => GLErr.noConfusion hx

/-- Claim C5: `close_period` fails with the already-closed conflict exactly
when some posted entry with the month's closing reference lacks a posted
reversal; when every such entry has a posted reversal the close proceeds
past that check (it can no longer fail with the already-closed error). -/
theorem C5_already_closed_requires_unreversed_closing (s : Session)
    (year month equity_account_id : Nat) (note : Option String)
    (u : Option Nat) (now : Nat) (okC okP : Bool)
    (hbusy : (year * 100 + month) ∉ s.busy)
    (hlock : _is_period_locked s.pending ⟨year, month, 1⟩ = false) :
    ((closingIds s.pending year month ≠ []
      ∧ ∃ cid ∈ closingIds s.pending year month,
          hasPostedReversalFor s.pending cid = false) →
      close_period s year month equity_account_id note u now okC okP
        = (s, .error .alreadyClosed))
    ∧ ((∀ cid ∈ closingIds s.pending year month,
          hasPostedReversalFor s.pending cid = true) →
      (close_period s year month equity_account_id note u now okC okP).2
        ≠ .error .alreadyClosed) := by
  constructor
  · rintro ⟨hne, cid, hmem, hnorev⟩
    have hcond : (!(closingIds s.pending year month).isEmpty
        && (closingIds s.pending year month).any
             (fun cid => !(hasPostedReversalFor s.pending cid))) = true := by
      rw [Bool.and_eq_true]
      constructor
      · rw [Bool.not_eq_true']
        exact List.isEmpty_eq_false.mpr hne
      · rw [List.any_eq_true]
        exact ⟨cid, hmem, by rw [hnorev]; rfl⟩
    simp only [close_period]
    rw [if_neg hbusy]
    rw [if_neg (show ¬(_is_period_locked s.pending ⟨year, month, 1⟩ = true) by
      simp [hlock])]
    rw [if_pos hcond]
  · intro hall
    have hany : (closingIds s.pending year month).any
        (fun cid => !(hasPostedReversalFor s.pending cid)) = false :=
      List.any_eq_false.mpr (fun x hx => by rw [hall x hx]; simp)
    simp only [close_period]
    rw [if_neg hbusy]
    rw [if_neg (show ¬(_is_period_locked s.pending ⟨year, month, 1⟩ = true) by
      simp [hlock])]
    rw [if_neg (show ¬((!(closingIds s.pending year month).isEmpty
        && (closingIds s.pending year month).any
             (fun cid => !(hasPostedReversalFor s.pending cid))) = true) by
      rw [hany, Bool.and_false]
      simp)]
    by_cases hnothing : ((closeAggregate s.pending ⟨year, month, 1⟩
        ⟨year, month, daysInMonth year month⟩).1.isEmpty
        && (closeAggregate s.pending ⟨year, month, 1⟩
            ⟨year, month, daysInMonth year month⟩).2.1 == 0
        && (closeAggregate s.pending ⟨year, month, 1⟩
            ⟨year, month, daysInMonth year month⟩).2.2 == 0) = true
    · rw [if_pos hnothing]
      intro hx
      exact GLErr.noConfusion (Except.error.inj hx)
    · rw [if_neg hnothing]
      split
      case _ s1 e heq =>
        intro hx
        exact (create_error_ne_alreadyClosed heq) (Except.error.inj hx)
      case _ s1 je0 heq =>
        split
        case _ s2 e heq2 =>
          intro hx
          exact (post_error_ne_alreadyClosed heq2) (Except.error.inj hx)
        case _ s2 je heq2 =>
          intro hx
          exact Except.noConfusion hx

/-- Witness for C5: `c5session` holds a posted `CLOSE-202508` entry with no
posted reversal, so closing 2025-08 again fails with the already-closed
conflict. -/
theorem C5_already_closed_requires_unreversed_closing_witness :
    close_period c5session 2025 8 3 none (some 7) 12 true true
      = (c5session, .error .alreadyClosed) := by
  have happ := C5_already_closed_requires_unreversed_closing c5session 2025 8 3
    none (some 7) 12 true true (by decide) (by decide)
  exact happ.1 ⟨by decide, 2, by decide, by decide⟩

/-! Preservation of the balance invariant by every service operation. -/

theorem balanced_createCommit (s : Session) (je : JournalEntry) (ok : Bool)
    (hb : sessionBalanced s) (hje : sumDebits je.lines = sumCredits je.lines) :
    sessionBalanced (createCommit s je ok) := by
  obtain ⟨hbc, hbp⟩ := hb
  have hbp' : ∀ e ∈ s.pending.entries ++ [je],
      sumDebits e.lines = sumCredits e.lines := by
    intro e he
    simp only [List.mem_append, List.mem_singleton] at he
    rcases he with he | rfl
    · exact hbp e he
    · exact hje
  cases ok with
  | true =>
    exact ⟨fun e he => hbp' e (by simpa [createCommit, commit, _log] using he),
           fun e he => hbp' e (by simpa [createCommit, commit, _log] using he)⟩
  | false =>
    exact ⟨fun e he => hbc e (by simpa [createCommit, commit, _log, rollback] using he),
           fun e he => hbc e (by simpa [createCommit, commit, _log, rollback] using he)⟩

theorem balanced_create (s : Session) (p : CreateParams) (ok : Bool)
    (hb : sessionBalanced s) :
    sessionBalanced (create_journal_entry s p ok).1 := by
  cases hpl : processLines s.pending p.lines 1 with
  | error e =>
    simp only [create_journal_entry, hpl]
    exact hb
  | ok r =>
    obtain ⟨objs, td, tc⟩ := r
    simp only [create_journal_entry, hpl]
    by_cases hne : td ≠ tc
    · rw [if_pos hne]
      exact hb
    · rw [if_neg hne]
      push_neg at hne
      obtain ⟨_, _, _, hsd, hsc⟩ := processLines_ok hpl
      have hje : sumDebits (newEntry s p objs).lines
          = sumCredits (newEntry s p objs).lines := by
        show sumDebits objs = sumCredits objs
        omega
      have hcc := balanced_createCommit s (newEntry s p objs) ok hb hje
      cases hf : findEntry (createCommit s (newEntry s p objs) ok).committed
          (newEntry s p objs).id with
      | some je2 =>
        simp only [hf]
        exact hcc
      | none =>
        simp only [hf]
        exact hcc

theorem balanced_updateEntry (st : Store) (je_id : Nat)
    (f : JournalEntry → JournalEntry) (hfl : ∀ e, (f e).lines = e.lines)
    (hb : balancedStore st) : balancedStore (updateEntry st je_id f) := by
  intro e he
  simp only [updateEntry, List.mem_map] at he
  obtain ⟨x, hx, rfl⟩ := he
  by_cases hxid : x.id = je_id
  · rw [if_pos hxid, hfl]
    exact hb x hx
  · rw [if_neg hxid]
    exact hb x hx

theorem balanced_postCommit (s : Session) (je_id : Nat) (u : Option Nat)
    (now : Nat) (ok : Bool) (hb : sessionBalanced s) :
    sessionBalanced (postCommit s je_id u now ok) := by
  obtain ⟨hbc, hbp⟩ := hb
  have hup : balancedStore (updateEntry s.pending je_id (postFlags u now)) :=
    balanced_updateEntry s.pending je_id (postFlags u now) (fun e => rfl) hbp
  cases ok with
  | true =>
    exact ⟨fun e he => hup e (by simpa [postCommit, commit, _log, updateEntry] using he),
           fun e he => hup e (by simpa [postCommit, commit, _log, updateEntry] using he)⟩
  | false =>
    exact ⟨fun e he => hbc e (by simpa [postCommit, commit, _log, rollback] using he),
           fun e he => hbc e (by simpa [postCommit, commit, _log, rollback] using he)⟩

theorem balanced_post (s : Session) (je_id : Nat) (u : Option Nat) (now : Nat)
    (ok : Bool) (hb : sessionBalanced s) :
    sessionBalanced (post_journal_entry s je_id u now ok).1 := by
  cases hf : findEntry s.pending je_id with
  | none =>
    simp only [post_journal_entry, hf]
    exact hb
  | some je =>
    simp only [post_journal_entry, hf]
    cases hl : je.is_locked with
    | true =>
      rw [if_pos rfl]
      exact hb
    | false =>
      rw [if_neg (by simp)]
      by_cases hpd : _is_period_locked s.pending je.entry_date = true
      · rw [if_pos hpd]
        exact hb
      · rw [if_neg hpd]
        by_cases hbal : sumDebits je.lines ≠ sumCredits je.lines
        · rw [if_pos hbal]
          exact hb
        · rw [if_neg hbal]
          have hpc := balanced_postCommit s je_id u now ok hb
          cases hf2 : findEntry (postCommit s je_id u now ok).committed je_id with
          | some je2 =>
            simp only [hf2]
            exact hpc
          | none =>
            simp only [hf2]
            exact hpc

theorem balanced_unpostCommit (s : Session) (je_id : Nat) (ok : Bool)
    (hb : sessionBalanced s) : sessionBalanced (unpostCommit s je_id ok) := by
  obtain ⟨hbc, hbp⟩ := hb
  have hup : balancedStore (updateEntry s.pending je_id unpostFlags) :=
    balanced_updateEntry s.pending je_id unpostFlags (fun e => rfl) hbp
  cases ok with
  | true =>
    exact ⟨fun e he => hup e (by simpa [unpostCommit, commit, _log, updateEntry] using he),
           fun e he => hup e (by simpa [unpostCommit, commit, _log, updateEntry] using he)⟩
  | false =>
    exact ⟨fun e he => hbc e (by simpa [unpostCommit, commit, _log, rollback] using he),
           fun e he => hbc e (by simpa [unpostCommit, commit, _log, rollback] using he)⟩

theorem balanced_unpost (s : Session) (je_id : Nat) (u : Option Nat) (ok : Bool)
    (hb : sessionBalanced s) :
    sessionBalanced (unpost_journal_entry s je_id u ok).1 := by
  cases hf : findEntry s.pending je_id with
  | none =>
    simp only [unpost_journal_entry, hf]
    exact hb
  | some je =>
    simp only [unpost_journal_entry, hf]
    cases hl : je.is_locked with
    | false =>
      rw [if_pos (show (!false) = true from rfl)]
      exact hb
    | true =>
      rw [if_neg (show ¬((!true) = true) by simp)]
      by_cases hpd : _is_period_locked s.pending je.entry_date = true
      · rw [if_pos hpd]
        exact hb
      · rw [if_neg hpd]
        have hpc := balanced_unpostCommit s je_id ok hb
        cases hf2 : findEntry (unpostCommit s je_id ok).committed je_id with
        | some je2 =>
          simp only [hf2]
          exact hpc
        | none =>
          simp only [hf2]
          exact hpc

theorem balanced_set_period_lock (s : Session) (d : GLDate) (b : Bool)
    (note : Option String) (hb : sessionBalanced s) :
    sessionBalanced (_set_period_lock s d b note) := by
  obtain ⟨hbc, hbp⟩ := hb
  have hup : balancedStore (upsertLock s.pending d b note) := by
    intro e he
    apply hbp
    unfold upsertLock at he
    by_cases hx : s.pending.period_locks.any (fun p => p.period_month == d) = true
    · rw [if_pos hx] at he
      exact he
    · rw [if_neg hx] at he
      exact he
  exact ⟨fun e he => hup e he, fun e he => hup e he⟩

theorem balanced_reverse (s : Session) (je_id : Nat) (as_of : Option GLDate)
    (u : Option Nat) (now : Nat) (okC okP : Bool) (hb : sessionBalanced s) :
    sessionBalanced (reverse_journal_entry s je_id as_of u now okC okP).1 := by
  cases hf : findEntry s.pending je_id with
  | none =>
    simp only [reverse_journal_entry, hf]
    exact hb
  | some src =>
    simp only [reverse_journal_entry, hf]
    cases hl : src.is_locked with
    | false =>
      rw [if_pos (show (!false) = true from rfl)]
      exact hb
    | true =>
      rw [if_neg (show ¬((!true) = true) by simp)]
      by_cases hpd : _is_period_locked s.pending (as_of.getD src.entry_date) = true
      · rw [if_pos hpd]
        exact hb
      · rw [if_neg hpd]
        split
        case _ s1 e heq =>
          rw [← heq]
          exact balanced_create s _ okC hb
        case _ s1 rev heq =>
          have hc' : sessionBalanced s1 := by
            have hx : sessionBalanced
                ((s1, (Except.ok rev : Except GLErr JournalEntry))).1 := by
              rw [← heq]
              exact balanced_create s _ okC hb
            exact hx
          exact balanced_post s1 rev.id u now okP hc'

theorem balanced_close (s : Session) (year month equity_account_id : Nat)
    (note : Option String) (u : Option Nat) (now : Nat) (okC okP : Bool)
    (hb : sessionBalanced s) :
    sessionBalanced
      (close_period s year month equity_account_id note u now okC okP).1 := by
  simp only [close_period]
  by_cases hbusy : (year * 100 + month) ∈ s.busy
  · rw [if_pos hbusy]
    exact hb
  · rw [if_neg hbusy]
    by_cases hlock : _is_period_locked s.pending ⟨year, month, 1⟩ = true
    · rw [if_pos hlock]
      exact hb
    · rw [if_neg hlock]
      by_cases hclosed : (!(closingIds s.pending year month).isEmpty
          && (closingIds s.pending year month).any
               (fun cid => !(hasPostedReversalFor s.pending cid))) = true
      · rw [if_pos hclosed]
        exact hb
      · rw [if_neg hclosed]
        by_cases hnothing : ((closeAggregate s.pending ⟨year, month, 1⟩
            ⟨year, month, daysInMonth year month⟩).1.isEmpty
            && (closeAggregate s.pending ⟨year, month, 1⟩
                ⟨year, month, daysInMonth year month⟩).2.1 == 0
            && (closeAggregate s.pending ⟨year, month, 1⟩
                ⟨year, month, daysInMonth year month⟩).2.2 == 0) = true
        · rw [if_pos hnothing]
          exact hb
        · rw [if_neg hnothing]
          split
          case _ s1 e heq =>
            rw [← heq]
            exact balanced_create s _ okC hb
          case _ s1 je0 heq =>
            have hc' : sessionBalanced s1 := by
              have hx : sessionBalanced
                  ((s1, (Except.ok je0 : Except GLErr JournalEntry))).1 := by
                rw [← heq]
                exact balanced_create s _ okC hb
              exact hx
            split
            case _ s2 e heq2 =>
              rw [← heq2]
              exact balanced_post s1 je0.id u now okP hc'
            case _ s2 je heq2 =>
              have hp' : sessionBalanced s2 := by
                have hx : sessionBalanced
                    ((s2, (Except.ok je : Except GLErr JournalEntry))).1 := by
                  rw [← heq2]
                  exact balanced_post s1 je0.id u now okP hc'
                exact hx
              exact balanced_set_period_lock s2 ⟨year, month, 1⟩ true _ hp'

theorem balanced_applyOp (s : Session) (op : GLOp) (hb : sessionBalanced s) :
    sessionBalanced (applyOp s op) := by
  cases op with
  | create p ok => exact balanced_create s p ok hb
  | post id u now ok => exact balanced_post s id u now ok hb
  | unpost id u ok => exact balanced_unpost s id u ok hb
  | reverse id asOf u now okC okP => exact balanced_reverse s id asOf u now okC okP hb
  | close y m eq note u now okC okP =>
    exact balanced_close s y m eq note u now okC okP hb
  | reopen y m note => exact balanced_set_period_lock s ⟨y, m, 1⟩ false _ hb

theorem balanced_foldl (ops : List GLOp) :
    ∀ s : Session, sessionBalanced s →
    sessionBalanced (List.foldl applyOp s ops) := by
  induction ops with
  | nil =>
    intro s hb
    exact hb
  | cons op rest ih =>
    intro s hb
    exact ih (applyOp s op) (balanced_applyOp s op hb)

theorem sessionBalanced_init (accounts : List GLAccount) (busy : List Nat) :
    sessionBalanced (initSession accounts busy) := by
  constructor
  · intro e he
    simp [initSession] at he
  · intro e he
    simp [initSession] at he

/-- Claim C2: in every session state reachable through the service layer,
every stored journal entry — committed or pending, draft or posted —
satisfies `sum(line.debit) = sum(line.credit)` (in cents, i.e. to 2 decimal
places): the invariant is established by create and preserved by post,
unpost, reverse, close and reopen. -/
theorem C2_persisted_entries_balanced (s : Session) (h : Reachable s)
    (e : JournalEntry)
    (he : e ∈ s.committed.entries ∨ e ∈ s.pending.entries) :
    sumDebits e.lines = sumCredits e.lines := by
  obtain ⟨accts, busy, ops, rfl⟩ := h
  have hb := balanced_foldl ops (initSession accts busy)
    (sessionBalanced_init accts busy)
  rcases he with he | he
  · exact hb.1 e he
  · exact hb.2 e he

/-- Witness for C2: the §8 entry created and posted into `c2session` is
balanced. -/
theorem C2_persisted_entries_balanced_witness :
    sumDebits c2entry.lines = sumCredits c2entry.lines := by
  have hr : Reachable c2session :=
    ⟨demoAccounts, [], [GLOp.create c7params true, GLOp.post 1 (some 7) 11 true], rfl⟩
  exact C2_persisted_entries_balanced c2session hr c2entry (Or.inl (by decide))

end Ledger
